import Mathlib

/-!
Verification of the USDA data pipeline (src/main.py, src/data_consts.py,
src/pages/Balance_Sheet.py) against its natural-language specification.

The pandas DataFrames are embedded as Lean lists of records.  A pandas
left-merge is modelled row by row: every left row is kept, matched against
all reference rows with an equal key, and an unmatched row carries a null
(Option.none) description.  The astype(str) cast of clean_usda_data turns a
null cell into the literal string "nan", exactly as pandas does, so the
cleaned record type carries plain strings.
-/

namespace USDA

namespace Constants

/-- Constants.PROD_CODE: the tracked commodity codes. -/
def PROD_CODE : List String :=
  ["0813600", "0813100", "0813101", "0813500", "4239100",
   "4232000", "4232001", "4236000", "2226000", "2222000",
   "2222001", "2224000", "4243000", "4244000"]

/-- Constants.REQ_COLS: the eight canonical output columns. -/
def REQ_COLS : List String :=
  ["CommodityDescription", "CountryName", "MarketYear", "CalendarYear", "Month",
   "AttributeDescription", "UnitDescription", "Value"]

/-- Constants.COMM_DESC: the fixed 14-entry tracked commodity description set. -/
def COMM_DESC : List String :=
  ["Meal, Rapeseed", "Meal, Soybean", "Meal, Soybean (Local)", "Meal, Sunflowerseed",
   "Oil, Palm", "Oil, Palm Kernel", "Oil, Rapeseed", "Oil, Soybean",
   "Oil, Soybean (Local)", "Oil, Sunflowerseed", "Oilseed, Rapeseed",
   "Oilseed, Soybean", "Oilseed, Soybean (Local)", "Oilseed, Sunflowerseed"]

/-- Constants.AGG_LIST: the six-field aggregation key. -/
def AGG_LIST : List String :=
  ["CommodityDescription", "CountryName", "MarketYear", "Month", "UnitDescription",
   "AttributeDescription"]

end Constants

/-- One raw observation record as returned by the PSD endpoint
(fields consumed by clean_usda_data). -/
structure RawRow where
  commodityCode : String
  countryCode : String
  attributeId : Int
  unitId : Int
  marketYear : Int
  calendarYear : Int
  month : Int
  value : ℚ
deriving DecidableEq, Repr

/-- One row of the country reference table (fields used by the merge). -/
structure CountryRef where
  countryCode : String
  countryName : String
deriving DecidableEq, Repr

/-- One row of the commodity reference table. -/
structure CommodityRef where
  commodityCode : String
  commodityName : String
deriving DecidableEq, Repr

/-- One row of the commodity-attribute reference table. -/
structure AttributeRef where
  attributeId : Int
  attributeName : String
deriving DecidableEq, Repr

/-- One row of the units-of-measure reference table. -/
structure UnitRef where
  unitId : Int
  unitDescription : String
deriving DecidableEq, Repr

/-- A raw row after the four left-merges of clean_usda_data, before the
astype cast: each joined description is null (none) when the reference
lookup failed. -/
structure MergedRow where
  r : RawRow
  countryName : Option String
  commodityDescription : Option String
  attributeDescription : Option String
  unitDescription : Option String
deriving DecidableEq, Repr

/-- pandas DataFrame.merge(..., how="left") modelled row by row: every left
row is retained; it is matched against all reference rows whose key agrees,
and an unmatched left row produces a single output row with a none
reference. -/
def leftMerge {α β γ : Type} (l : List α) (ref : List β) (key : α → β → Bool)
    (mk : α → Option β → γ) : List γ :=
  l.flatMap fun a =>
    if (ref.filter (key a)).isEmpty then [mk a none]
    else (ref.filter (key a)).map fun b => mk a (some b)

/-- First merge of clean_usda_data: country names on countryCode. -/
def mergeCountry (raw : List RawRow) (cref : List CountryRef) : List MergedRow :=
  leftMerge raw cref (fun r c => c.countryCode == r.countryCode)
    (fun r c => { r := r, countryName := c.map (·.countryName),
                  commodityDescription := none, attributeDescription := none,
                  unitDescription := none })

/-- Second merge of clean_usda_data: commodity descriptions on commodityCode. -/
def mergeCommodity (l : List MergedRow) (kref : List CommodityRef) : List MergedRow :=
  leftMerge l kref (fun m k => k.commodityCode == m.r.commodityCode)
    (fun m k => { m with commodityDescription := k.map (·.commodityName) })

/-- Third merge of clean_usda_data: attribute descriptions on attributeId. -/
def mergeAttribute (l : List MergedRow) (aref : List AttributeRef) : List MergedRow :=
  leftMerge l aref (fun m a => a.attributeId == m.r.attributeId)
    (fun m a => { m with attributeDescription := a.map (·.attributeName) })

/-- Fourth merge of clean_usda_data: unit descriptions on unitId. -/
def mergeUnit (l : List MergedRow) (uref : List UnitRef) : List MergedRow :=
  leftMerge l uref (fun m u => u.unitId == m.r.unitId)
    (fun m u => { m with unitDescription := u.map (·.unitDescription) })

/-- The four successive left-merges of clean_usda_data (src/main.py lines
117-137), with the renames to canonical description names applied through
the field names. -/
def merge_refs (raw : List RawRow) (cref : List CountryRef) (kref : List CommodityRef)
    (aref : List AttributeRef) (uref : List UnitRef) : List MergedRow :=
  mergeUnit (mergeAttribute (mergeCommodity (mergeCountry raw cref) kref) aref) uref

/-- One row of the cleaned table.  After clean_usda_data's astype cast
(convert_dict) every column holds a concrete value of its declared type, so
no field is optional here. -/
structure CleanRow where
  CommodityDescription : String
  CountryName : String
  MarketYear : Int
  CalendarYear : Int
  Month : Int
  AttributeDescription : String
  UnitDescription : String
  Value : ℚ
deriving DecidableEq, Repr

/-- pandas astype(str) on an object cell: a null (NaN) cell becomes the
literal string "nan"; an actual string is unchanged. -/
def astypeStr : Option String → String
  | some s => s
  | none => "nan"

/-- Leading/trailing-whitespace removal on a character list, as performed by
pandas Series.str.strip(). -/
def stripChars (l : List Char) : List Char :=
  ((l.dropWhile Char.isWhitespace).reverse.dropWhile Char.isWhitespace).reverse

/-- pandas Series.str.strip() on one string. -/
def strip (s : String) : String := ⟨stripChars s.data⟩

/-- Column selection, astype cast and rename of clean_usda_data applied to
one merged row (src/main.py lines 149-163). -/
def toCleanRow (m : MergedRow) : CleanRow :=
  { CommodityDescription := astypeStr m.commodityDescription
    CountryName := astypeStr m.countryName
    MarketYear := m.r.marketYear
    CalendarYear := m.r.calendarYear
    Month := m.r.month
    AttributeDescription := astypeStr m.attributeDescription
    UnitDescription := astypeStr m.unitDescription
    Value := m.r.value }

/-- The str.strip() pass of clean_usda_data over the four object (string)
columns (src/main.py lines 165-167). -/
def stripRow (r : CleanRow) : CleanRow :=
  { r with CommodityDescription := strip r.CommodityDescription
           CountryName := strip r.CountryName
           AttributeDescription := strip r.AttributeDescription
           UnitDescription := strip r.UnitDescription }

/-- The handler state set up in USDADataHandler.__init__ that the cleaning
and fetching code consults (src/main.py lines 18-26). -/
structure USDADataHandler where
  current_year : Int
deriving DecidableEq, Repr

/-- self.market_year = current_year + 1. -/
def USDADataHandler.market_year (h : USDADataHandler) : Int := h.current_year + 1

/-- self.min_market_year = market_year - 5. -/
def USDADataHandler.min_market_year (h : USDADataHandler) : Int := h.market_year - 5

/-- self.market_years = list(range(min_market_year, market_year)), a window
of five consecutive years. -/
def USDADataHandler.market_years (h : USDADataHandler) : List Int :=
  (List.range 5).map fun i => h.min_market_year + i

/-- USDADataHandler.clean_usda_data (src/main.py lines 99-173) at the row
level: the four left-merges, the renames, the column selection, the astype
cast, the string strip, then the commodity allow-list filter and the
marketing-year filter.  On an empty raw table the source returns an empty
frame with the canonical columns, which at the row level is the empty list
this pipeline also produces; the column-level behaviour is modelled by
clean_usda_cols below. -/
def USDADataHandler.clean_usda_data (h : USDADataHandler) (raw : List RawRow)
    (cref : List CountryRef) (kref : List CommodityRef)
    (aref : List AttributeRef) (uref : List UnitRef) : List CleanRow :=
  (((merge_refs raw cref kref aref uref).map fun m => stripRow (toCleanRow m))
      |>.filter fun r => Constants.COMM_DESC.contains r.CommodityDescription)
      |>.filter fun r => decide (h.min_market_year ≤ r.MarketYear)

/-- missing_cols of clean_usda_data (src/main.py line 144): the required
columns absent from the post-join, post-rename column set. -/
def missing_cols (cols : List String) : List String :=
  Constants.REQ_COLS.filter fun c => !(cols.contains c)

/-- The column-level behaviour of clean_usda_data: the empty-input early
return of the canonical schema (src/main.py lines 113-114) and the
required-column validation that raises ValueError on a missing column
(src/main.py lines 143-146); on success the kept columns are exactly
REQ_COLS (line 149). -/
def clean_usda_cols (rawEmpty : Bool) (postJoinCols : List String) :
    Except (List String) (List String) :=
  if rawEmpty then Except.ok Constants.REQ_COLS
  else if (missing_cols postJoinCols).isEmpty then Except.ok Constants.REQ_COLS
  else Except.error (missing_cols postJoinCols)

/-- The six-field grouping key of aggregate_usda_data (Constants.AGG_LIST). -/
structure AggKey where
  CommodityDescription : String
  CountryName : String
  MarketYear : Int
  Month : Int
  UnitDescription : String
  AttributeDescription : String
deriving DecidableEq, Repr

/-- Projection of a cleaned row onto the aggregation key columns. -/
def keyOf (r : CleanRow) : AggKey :=
  ⟨r.CommodityDescription, r.CountryName, r.MarketYear, r.Month,
   r.UnitDescription, r.AttributeDescription⟩

/-- View of a cleaned table as the (key, Value) pairs the groupby consults. -/
def toKeyed (rows : List CleanRow) : List (AggKey × ℚ) :=
  rows.map fun r => (keyOf r, r.Value)

/-- Sum of the Value column over the rows of one group. -/
def groupValueSum (l : List (AggKey × ℚ)) (k : AggKey) : ℚ :=
  ((l.filter fun p => decide (p.1 = k)).map Prod.snd).sum

/-- USDADataHandler.aggregate_usda_data (src/main.py lines 175-181):
clean_data.groupby(AGG_LIST)[Value].sum().reset_index() on the
(key, Value) view of a table — one output row per distinct key, holding the
group's Value sum. -/
def aggregate_usda_data (l : List (AggKey × ℚ)) : List (AggKey × ℚ) :=
  ((l.map Prod.fst).dedup).map fun k => (k, groupValueSum l k)

/-- The run summary printed by get_combined_data: the request total
(total_requests), the completed-request counter at the end of the loop, and
the record count printed on the final line (src/main.py lines 183-204).
The source prints no other aggregate of the run. -/
structure RunSummary where
  total_requests : Nat
  completed : Nat
  record_count : Nat
deriving DecidableEq, Repr

/-- Records contributed by one (code, year) request: fetch_USDA_data
returns None on failure, and the loop body extends combined_data only when
the response is truthy, so a failed pair contributes nothing. -/
def fetch_records (fetch : String → Int → Option (List RawRow))
    (code : String) (year : Int) : List RawRow :=
  match fetch code year with
  | some d => d
  | none => []

/-- USDADataHandler.get_combined_data (src/main.py lines 183-204) with the
per-pair fetch abstracted as a function: one request per
(product code, market year) pair, combined in loop order, plus the run
summary the code reports. -/
def get_combined_data (fetch : String → Int → Option (List RawRow))
    (codes : List String) (years : List Int) : List RawRow × RunSummary :=
  let records := codes.flatMap fun c => years.flatMap fun y => fetch_records fetch c y
  (records, ⟨codes.length * years.length, codes.length * years.length, records.length⟩)

namespace BalanceSheet

/-- One marketing-year column of the pivoted attribute-by-year table of
src/pages/Balance_Sheet.py (lines 126-130): rows indexed by attribute
description, a cell holding none where the pivot left NaN.  The derivation
steps below act element-wise on the year columns, so one column models the
whole pass. -/
abbrev BTable := List (String × Option ℚ)

/-- Membership test of an attribute in the pivot index. -/
def hasAttr (t : BTable) (a : String) : Bool := t.any fun p => p.1 == a

/-- table.loc lookup of one attribute's cell in this year column. -/
def getCell (t : BTable) (a : String) : Option ℚ :=
  match t.find? (fun p => p.1 == a) with
  | some p => p.2
  | none => none

/-- NaN-propagating addition of two cells, as for pandas Series addition. -/
def cellAdd : Option ℚ → Option ℚ → Option ℚ
  | some a, some b => some (a + b)
  | _, _ => none

/-- The four consumption component attributes consulted by the Domestic
Consumption derivation. -/
def CONS_PARTS : List String :=
  ["Food Use Dom. Cons.", "Industrial Dom. Cons.", "Feed Waste Dom. Cons.",
   "Feed Dom. Cons."]

/-- Derivation of "Domestic Consumption" (Balance_Sheet.py lines 133-141):
when absent, copy "Total Dom. Cons." if present, else append the
DataFrame.sum of whichever consumption components are present (pandas sum
skips NaN cells and yields 0 on an all-NaN selection). -/
def derive_dc (t : BTable) : BTable :=
  if hasAttr t "Domestic Consumption" then t
  else if hasAttr t "Total Dom. Cons." then
    t ++ [("Domestic Consumption", getCell t "Total Dom. Cons.")]
  else if (CONS_PARTS.filter (hasAttr t)).isEmpty then t
  else
    t ++ [("Domestic Consumption",
           some (((CONS_PARTS.filter (hasAttr t)).filterMap (getCell t)).sum))]

/-- Derivation of "Total Use" (Balance_Sheet.py lines 143-147): when
absent, Domestic Consumption + Exports, only if both rows are present. -/
def derive_tu (t : BTable) : BTable :=
  if hasAttr t "Total Use" then t
  else if hasAttr t "Domestic Consumption" && hasAttr t "Exports" then
    t ++ [("Total Use", cellAdd (getCell t "Domestic Consumption") (getCell t "Exports"))]
  else t

/-- Derivation of "Total Distribution" (Balance_Sheet.py lines 149-152):
when absent, Total Use + Ending Stocks, only if both rows are present. -/
def derive_td (t : BTable) : BTable :=
  if hasAttr t "Total Distribution" then t
  else if hasAttr t "Total Use" && hasAttr t "Ending Stocks" then
    t ++ [("Total Distribution", cellAdd (getCell t "Total Use") (getCell t "Ending Stocks"))]
  else t

/-- The Stock-to-Use cell: Ending Stocks divided by Total Use with a zero
denominator first replaced by NA (denom = replace(0, pd.NA)), times 100;
NaN propagates, so a zero Total Use leaves the cell undefined. -/
def stuCell (es tu : Option ℚ) : Option ℚ :=
  match es, (match tu with | some q => if q = 0 then none else some q | none => none) with
  | some e, some d => some (e / d * 100)
  | _, _ => none

/-- Derivation of "Stock-to-Use (%)" (Balance_Sheet.py lines 154-158):
when absent and both Ending Stocks and Total Use rows are present, append
the stuCell row. -/
def derive_stu (t : BTable) : BTable :=
  if hasAttr t "Stock-to-Use (%)" then t
  else if hasAttr t "Ending Stocks" && hasAttr t "Total Use" then
    t ++ [("Stock-to-Use (%)", stuCell (getCell t "Ending Stocks") (getCell t "Total Use"))]
  else t

/-- The whole derivation pass of Balance_Sheet.py (lines 133-158), in
source order: Domestic Consumption, then Total Use, then Total
Distribution, then Stock-to-Use. -/
def derive_rows (t : BTable) : BTable :=
  derive_stu (derive_td (derive_tu (derive_dc t)))

end BalanceSheet

/-- The number of (code, year) request pairs whose fetch fails.  The
specification says this count is reported in the run summary; the source
computes no such aggregate, so this definition exists only to compare that
claim against the RunSummary the code actually reports. -/
def failed_request_count (fetch : String → Int → Option (List RawRow))
    (codes : List String) (years : List Int) : Nat :=
  (codes.flatMap fun c => years.filter fun y => (fetch c y).isNone).length

/-- Handler used by the C1 scenario (current year 2025, window 2021-2025). -/
def c1h : USDADataHandler := ⟨2025⟩

/-- C1 raw row whose country code RU has no reference match. -/
def c1raw1 : RawRow := ⟨"4243000", "RU", 125, 8, 2024, 2024, 10, 7⟩

/-- C1 raw row whose country code ZZ resolves to a whitespace-only name. -/
def c1raw2 : RawRow := ⟨"4243000", "ZZ", 125, 8, 2024, 2024, 11, 3⟩

/-- C1 country reference table: no RU, and ZZ named by whitespace only. -/
def c1cref : List CountryRef := [⟨"US", "United States"⟩, ⟨"ZZ", "  "⟩]

/-- C1 commodity reference table. -/
def c1kref : List CommodityRef := [⟨"4243000", "Oil, Palm"⟩]

/-- C1 attribute reference table. -/
def c1aref : List AttributeRef := [⟨125, "Production"⟩]

/-- C1 unit reference table. -/
def c1uref : List UnitRef := [⟨8, "1000 MT"⟩]

/-- Handler used by the C2 scenario (current year 2024, window 2020-2024). -/
def c2h : USDADataHandler := ⟨2024⟩

/-- C2 raw row whose country code BR has no reference match. -/
def c2raw : RawRow := ⟨"4232000", "BR", 88, 7, 2023, 2023, 5, 5⟩

/-- C2 country reference table without BR. -/
def c2cref : List CountryRef := [⟨"AR", "Argentina"⟩]

/-- C2 commodity reference table. -/
def c2kref : List CommodityRef := [⟨"4232000", "Oil, Soybean"⟩]

/-- C2 attribute reference table. -/
def c2aref : List AttributeRef := [⟨88, "Exports"⟩]

/-- C2 unit reference table. -/
def c2uref : List UnitRef := [⟨7, "1000 MT"⟩]

/-- Handler used by the C3 witness (current year 2025). -/
def c3h : USDADataHandler := ⟨2025⟩

/-- C3 witness raw row. -/
def c3raw : RawRow := ⟨"2226000", "UP", 88, 8, 2024, 2024, 9, 12⟩

/-- C3 witness country reference table. -/
def c3cref : List CountryRef := [⟨"UP", "Ukraine"⟩]

/-- C3 witness commodity reference table. -/
def c3kref : List CommodityRef := [⟨"2226000", "Oil, Sunflowerseed"⟩]

/-- C3 witness attribute reference table. -/
def c3aref : List AttributeRef := [⟨88, "Exports"⟩]

/-- C3 witness unit reference table. -/
def c3uref : List UnitRef := [⟨8, "1000 MT"⟩]

/-- The cleaned row the C3 witness input produces. -/
def c3out : CleanRow := ⟨"Oil, Sunflowerseed", "Ukraine", 2024, 2024, 9, "Exports", "1000 MT", 12⟩

/-- C4 scenario row with Value 7. -/
def c4rowA : CleanRow := ⟨"Oil, Palm", "Russia", 2024, 2024, 10, "Production", "1000 MT", 7⟩

/-- C4 scenario row with the same six-field key and Value 13. -/
def c4rowB : CleanRow := ⟨"Oil, Palm", "Russia", 2024, 2024, 10, "Production", "1000 MT", 13⟩

/-- The shared aggregation key of the two C4 scenario rows. -/
def c4key : AggKey := ⟨"Oil, Palm", "Russia", 2024, 10, "1000 MT", "Production"⟩

/-- The C5 scenario year column: Production 100, Exports 30, Ending Stocks
20, Domestic Consumption absent, components 10/5/5. -/
def c5table : BalanceSheet.BTable :=
  [("Production", some 100), ("Exports", some 30), ("Ending Stocks", some 20),
   ("Food Use Dom. Cons.", some 10), ("Industrial Dom. Cons.", some 5),
   ("Feed Dom. Cons.", some 5)]

/-- C5 witness table with only a Total Dom. Cons. row. -/
def c5tTdc : BalanceSheet.BTable := [("Total Dom. Cons.", some 50)]

/-- C5 witness table with Domestic Consumption and Exports but no Total Use. -/
def c5tDcEx : BalanceSheet.BTable :=
  [("Domestic Consumption", some 20), ("Exports", some 30)]

/-- C5 witness table with Exports only. -/
def c5tEx : BalanceSheet.BTable := [("Exports", some 30)]

/-- C5 witness table with Ending Stocks positive and Total Use zero. -/
def c5tZero : BalanceSheet.BTable := [("Ending Stocks", some 20), ("Total Use", some 0)]

/-- C7 witness rows. -/
def c7rowA : CleanRow := ⟨"Oil, Rapeseed", "Canada", 2023, 2023, 4, "Imports", "1000 MT", 2⟩

/-- C7 witness rows. -/
def c7rowB : CleanRow := ⟨"Oil, Rapeseed", "Canada", 2023, 2023, 4, "Imports", "1000 MT", 9⟩

/-- The three (code, year) pairs that fail in the C9 scenario. -/
def c9fails (c : String) (y : Int) : Bool :=
  (c == "0813600" && y == 2021) || (c == "0813100" && y == 2023) ||
    (c == "4244000" && y == 2025)

/-- The single record a succeeding C9 request returns. -/
def c9rec (c : String) (y : Int) : RawRow := ⟨c, "US", 1, 1, y, y, 1, 1⟩

/-- C9 fetch function: fails on the three c9fails pairs, one record else. -/
def c9fetch (c : String) (y : Int) : Option (List RawRow) :=
  if c9fails c y then none else some [c9rec c y]

/-- The C9 fetch with the three failures patched to empty responses. -/
def c9fetch2 (c : String) (y : Int) : Option (List RawRow) :=
  if c9fails c y then some [] else some [c9rec c y]

/-- Handler used by the C9 scenario (window 2021-2025, 14 x 5 = 70 pairs). -/
def c9h : USDADataHandler := ⟨2025⟩

/-- The first cleaned row the C1 scenario produces (failed country join
coerced to the string nan by the astype cast). -/
def c1outrow : CleanRow := ⟨"Oil, Palm", "nan", 2024, 2024, 10, "Production", "1000 MT", 7⟩

end USDA

namespace USDA

/-! Helper lemmas about strings and whitespace stripping. -/

theorem dropWhile_dropWhile_self {α : Type} (p : α → Bool) (l : List α) :
    (l.dropWhile p).dropWhile p = l.dropWhile p := by
  induction l with
  | nil => rfl
  | cons a t ih =>
    cases h : p a
    · simp [List.dropWhile_cons, h]
    · simp [List.dropWhile_cons, h, ih]

theorem dropWhile_eq_self_of_front {α : Type} {p : α → Bool} {l m : List α}
    (hpre : m <+: l) (hl : l.dropWhile p = l) : m.dropWhile p = m := by
  cases m with
  | nil => rfl
  | cons a t =>
    obtain ⟨rest, hrest⟩ := hpre
    subst hrest
    cases h : p a
    · simp [List.dropWhile_cons, h]
    · exfalso
      rw [List.cons_append, List.dropWhile_cons] at hl
      simp only [h, if_true] at hl
      have hlen : ((t ++ rest).dropWhile p).length = (t ++ rest).length + 1 := by
        rw [hl, List.length_cons]
      have hle := (List.dropWhile_sublist (l := t ++ rest) p).length_le
      omega

theorem stripChars_stripChars (l : List Char) :
    stripChars (stripChars l) = stripChars l := by
  have key : ∀ m : List Char, m.dropWhile Char.isWhitespace = m →
      stripChars ((m.reverse.dropWhile Char.isWhitespace).reverse)
        = (m.reverse.dropWhile Char.isWhitespace).reverse := by
    intro m hm
    have hApre : (m.reverse.dropWhile Char.isWhitespace).reverse <+: m := by
      obtain ⟨t, ht⟩ := List.dropWhile_suffix (l := m.reverse) (p := Char.isWhitespace)
      exact ⟨t.reverse, by rw [← List.reverse_append, ht, List.reverse_reverse]⟩
    have hA1 := dropWhile_eq_self_of_front hApre hm
    unfold stripChars
    rw [hA1, List.reverse_reverse, dropWhile_dropWhile_self]
  exact key (l.dropWhile Char.isWhitespace) (dropWhile_dropWhile_self _ l)

theorem strip_strip (s : String) : strip (strip s) = strip s :=
  congrArg String.mk (stripChars_stripChars s.data)

/-! Helper lemmas about the left-merge. -/

theorem mem_leftMerge {α β γ : Type} {l : List α} {ref : List β}
    {key : α → β → Bool} {mk : α → Option β → γ} {x : γ}
    (hx : x ∈ leftMerge l ref key mk) :
    ∃ a ∈ l, x = mk a none ∨ ∃ b ∈ ref, x = mk a (some b) := by
  unfold leftMerge at hx
  rw [List.mem_flatMap] at hx
  obtain ⟨a, hal, hxa⟩ := hx
  refine ⟨a, hal, ?_⟩
  by_cases h : (ref.filter (key a)).isEmpty
  · rw [if_pos h] at hxa
    exact Or.inl (List.mem_singleton.mp hxa)
  · rw [if_neg h] at hxa
    obtain ⟨b, hb, heq⟩ := List.mem_map.mp hxa
    exact Or.inr ⟨b, (List.mem_filter.mp hb).1, heq.symm⟩

theorem leftMerge_mem_of_mem {α β γ : Type} {l : List α} (ref : List β)
    (key : α → β → Bool) (mk : α → Option β → γ) {a : α} (ha : a ∈ l) :
    ∃ ob : Option β, mk a ob ∈ leftMerge l ref key mk := by
  by_cases h : (ref.filter (key a)).isEmpty
  · refine ⟨none, ?_⟩
    unfold leftMerge
    exact List.mem_flatMap_of_mem ha (by rw [if_pos h]; exact List.mem_singleton_self _)
  · cases hm : ref.filter (key a) with
    | nil => rw [hm] at h; simp at h
    | cons b bs =>
      refine ⟨some b, ?_⟩
      unfold leftMerge
      refine List.mem_flatMap_of_mem ha ?_
      rw [if_neg h, hm]
      exact List.mem_map_of_mem _ (List.mem_cons_self b bs)

theorem leftMerge_mem_none {α β γ : Type} {l : List α} (ref : List β)
    (key : α → β → Bool) (mk : α → Option β → γ) {a : α} (ha : a ∈ l)
    (hnone : ∀ b ∈ ref, key a b = false) :
    mk a none ∈ leftMerge l ref key mk := by
  have h : ref.filter (key a) = [] :=
    List.filter_eq_nil_iff.mpr (by intro b hb; simp [hnone b hb])
  unfold leftMerge
  exact List.mem_flatMap_of_mem ha (by rw [h]; simp)

/-! Tracing the country name through the four merges. -/

theorem mergeCountry_countryName {raw : List RawRow} {cref : List CountryRef}
    {m : MergedRow} (h : m ∈ mergeCountry raw cref) :
    m.countryName = none ∨ ∃ c ∈ cref, m.countryName = some c.countryName := by
  obtain ⟨r, _, hc⟩ := mem_leftMerge h
  rcases hc with rfl | ⟨c, hcref, rfl⟩
  · exact Or.inl rfl
  · exact Or.inr ⟨c, hcref, rfl⟩

theorem mergeCommodity_countryName (kref : List CommodityRef) {l : List MergedRow}
    {m' : MergedRow} (h : m' ∈ mergeCommodity l kref) :
    ∃ m ∈ l, m'.countryName = m.countryName := by
  obtain ⟨m, hm, hc⟩ := mem_leftMerge h
  rcases hc with rfl | ⟨b, _, rfl⟩ <;> exact ⟨m, hm, rfl⟩

theorem mergeAttribute_countryName (aref : List AttributeRef) {l : List MergedRow}
    {m' : MergedRow} (h : m' ∈ mergeAttribute l aref) :
    ∃ m ∈ l, m'.countryName = m.countryName := by
  obtain ⟨m, hm, hc⟩ := mem_leftMerge h
  rcases hc with rfl | ⟨b, _, rfl⟩ <;> exact ⟨m, hm, rfl⟩

theorem mergeUnit_countryName (uref : List UnitRef) {l : List MergedRow}
    {m' : MergedRow} (h : m' ∈ mergeUnit l uref) :
    ∃ m ∈ l, m'.countryName = m.countryName := by
  obtain ⟨m, hm, hc⟩ := mem_leftMerge h
  rcases hc with rfl | ⟨b, _, rfl⟩ <;> exact ⟨m, hm, rfl⟩

theorem merge_refs_countryName {raw : List RawRow} {cref : List CountryRef}
    {kref : List CommodityRef} {aref : List AttributeRef} {uref : List UnitRef}
    {m : MergedRow} (h : m ∈ merge_refs raw cref kref aref uref) :
    m.countryName = none ∨ ∃ c ∈ cref, m.countryName = some c.countryName := by
  obtain ⟨m3, hm3, he3⟩ := mergeUnit_countryName uref h
  obtain ⟨m2, hm2, he2⟩ := mergeAttribute_countryName aref hm3
  obtain ⟨m1, hm1, he1⟩ := mergeCommodity_countryName kref hm2
  rw [he3, he2, he1]
  exact mergeCountry_countryName hm1

/-! Retention of rows through the merges. -/

theorem mergeCommodity_retains (kref : List CommodityRef) {l : List MergedRow}
    {m : MergedRow} (hm : m ∈ l) :
    ∃ m' ∈ mergeCommodity l kref, m'.r = m.r ∧ m'.countryName = m.countryName := by
  obtain ⟨ob, hmem⟩ := leftMerge_mem_of_mem kref _ _ hm
  exact ⟨_, hmem, rfl, rfl⟩

theorem mergeAttribute_retains (aref : List AttributeRef) {l : List MergedRow}
    {m : MergedRow} (hm : m ∈ l) :
    ∃ m' ∈ mergeAttribute l aref, m'.r = m.r ∧ m'.countryName = m.countryName := by
  obtain ⟨ob, hmem⟩ := leftMerge_mem_of_mem aref _ _ hm
  exact ⟨_, hmem, rfl, rfl⟩

theorem mergeUnit_retains (uref : List UnitRef) {l : List MergedRow}
    {m : MergedRow} (hm : m ∈ l) :
    ∃ m' ∈ mergeUnit l uref, m'.r = m.r ∧ m'.countryName = m.countryName := by
  obtain ⟨ob, hmem⟩ := leftMerge_mem_of_mem uref _ _ hm
  exact ⟨_, hmem, rfl, rfl⟩

theorem merge_refs_retains_unmatched {raw : List RawRow} {cref : List CountryRef}
    (kref : List CommodityRef) (aref : List AttributeRef) (uref : List UnitRef)
    {r : RawRow} (hr : r ∈ raw) (hnm : ∀ c ∈ cref, c.countryCode ≠ r.countryCode) :
    ∃ m ∈ merge_refs raw cref kref aref uref, m.r = r ∧ m.countryName = none := by
  have h0 : ({ r := r, countryName := none, commodityDescription := none,
               attributeDescription := none, unitDescription := none } : MergedRow)
      ∈ mergeCountry raw cref := by
    have := leftMerge_mem_none cref (fun r c => c.countryCode == r.countryCode)
      (fun r c => ({ r := r, countryName := c.map (·.countryName),
                     commodityDescription := none, attributeDescription := none,
                     unitDescription := none } : MergedRow)) hr
      (by intro c hc; simp [hnm c hc])
    exact this
  obtain ⟨m1, hm1, hr1, hc1⟩ := mergeCommodity_retains kref h0
  obtain ⟨m2, hm2, hr2, hc2⟩ := mergeAttribute_retains aref hm1
  obtain ⟨m3, hm3, hr3, hc3⟩ := mergeUnit_retains uref hm2
  exact ⟨m3, hm3, by rw [hr3, hr2, hr1], by rw [hc3, hc2, hc1]⟩

/-! Characterization of cleaned-output membership. -/

theorem mem_clean_usda_data {h : USDADataHandler} {raw : List RawRow}
    {cref : List CountryRef} {kref : List CommodityRef} {aref : List AttributeRef}
    {uref : List UnitRef} {r : CleanRow}
    (hr : r ∈ h.clean_usda_data raw cref kref aref uref) :
    ∃ m ∈ merge_refs raw cref kref aref uref,
      r = stripRow (toCleanRow m) ∧
      Constants.COMM_DESC.contains r.CommodityDescription = true ∧
      h.min_market_year ≤ r.MarketYear := by
  unfold USDADataHandler.clean_usda_data at hr
  rw [List.mem_filter] at hr
  obtain ⟨hr, hyear⟩ := hr
  rw [List.mem_filter] at hr
  obtain ⟨hr, hcomm⟩ := hr
  obtain ⟨m, hm, heq⟩ := List.mem_map.mp hr
  exact ⟨m, hm, heq.symm, hcomm, by simpa using hyear⟩

end USDA

namespace USDA

/-! Helper lemmas about the groupby aggregation. -/

theorem filter_eq_singleton_of_nodup {α : Type} [DecidableEq α] {keys : List α}
    (hnd : keys.Nodup) {k : α} (hk : k ∈ keys) :
    keys.filter (fun x => decide (x = k)) = [k] := by
  induction keys with
  | nil => exact absurd hk (List.not_mem_nil k)
  | cons a t ih =>
    rw [List.nodup_cons] at hnd
    rcases List.mem_cons.mp hk with h | h
    · subst h
      rw [List.filter_cons_of_pos (by simp)]
      have ht : t.filter (fun x => decide (x = k)) = [] := by
        rw [List.filter_eq_nil_iff]
        intro b hb
        simp only [decide_eq_true_eq]
        rintro rfl
        exact hnd.1 hb
      rw [ht]
    · have hne : a ≠ k := fun he => hnd.1 (he ▸ h)
      rw [List.filter_cons_of_neg (by simp [hne])]
      exact ih hnd.2 h

theorem filter_fst_eq_of_nodup {l : List (AggKey × ℚ)} (hnd : (l.map Prod.fst).Nodup)
    {k : AggKey} {v : ℚ} (hkv : (k, v) ∈ l) :
    l.filter (fun p => decide (p.1 = k)) = [(k, v)] := by
  induction l with
  | nil => cases hkv
  | cons a t ih =>
    rw [List.map_cons, List.nodup_cons] at hnd
    rcases List.mem_cons.mp hkv with h | h
    · have ha : a = (k, v) := h.symm
      subst ha
      have hk1 : k ∉ t.map Prod.fst := hnd.1
      rw [List.filter_cons_of_pos (by simp)]
      have ht : t.filter (fun p : AggKey × ℚ => decide (p.1 = k)) = [] := by
        rw [List.filter_eq_nil_iff]
        intro b hb
        simp only [decide_eq_true_eq]
        intro hbk
        exact hk1 (hbk ▸ List.mem_map_of_mem Prod.fst hb)
      rw [ht]
    · have hne : a.1 ≠ k := by
        intro he
        exact hnd.1 (by rw [he]; exact List.mem_map_of_mem Prod.fst h)
      rw [List.filter_cons_of_neg (by simp [hne])]
      exact ih hnd.2 h

theorem map_fst_aggregate (l : List (AggKey × ℚ)) :
    (aggregate_usda_data l).map Prod.fst = (l.map Prod.fst).dedup := by
  unfold aggregate_usda_data
  rw [List.map_map]
  have hid : (Prod.fst ∘ fun k => (k, groupValueSum l k)) = id := rfl
  rw [hid, List.map_id]

theorem aggregate_keys_nodup (l : List (AggKey × ℚ)) :
    ((aggregate_usda_data l).map Prod.fst).Nodup := by
  rw [map_fst_aggregate]
  exact List.nodup_dedup _

theorem aggregate_filter_key (l : List (AggKey × ℚ)) {k : AggKey}
    (hk : k ∈ l.map Prod.fst) :
    (aggregate_usda_data l).filter (fun p => decide (p.1 = k))
      = [(k, groupValueSum l k)] := by
  unfold aggregate_usda_data
  rw [List.filter_map]
  have hcomp : ((fun p : AggKey × ℚ => decide (p.1 = k)) ∘
      (fun x => (x, groupValueSum l x))) = fun x => decide (x = k) := rfl
  rw [hcomp, filter_eq_singleton_of_nodup (List.nodup_dedup _) (List.mem_dedup.mpr hk)]
  rfl

theorem groupValueSum_toKeyed (t : List CleanRow) (k : AggKey) :
    groupValueSum (toKeyed t) k
      = ((t.filter fun r => decide (keyOf r = k)).map CleanRow.Value).sum := by
  unfold groupValueSum toKeyed
  rw [List.filter_map, List.map_map]
  rfl

theorem aggregate_eq_self_of_nodup_keys {l : List (AggKey × ℚ)}
    (hnd : (l.map Prod.fst).Nodup) : aggregate_usda_data l = l := by
  unfold aggregate_usda_data
  rw [List.dedup_eq_self.mpr hnd, List.map_map]
  conv_rhs => rw [← List.map_id l]
  apply List.map_congr_left
  intro p hp
  obtain ⟨k, v⟩ := p
  have hfil := filter_fst_eq_of_nodup hnd hp
  show (k, groupValueSum l k) = (k, v)
  unfold groupValueSum
  rw [hfil]
  show (k, ([v] : List ℚ).sum) = (k, v)
  rw [List.sum_singleton]

theorem aggregate_idem (l : List (AggKey × ℚ)) :
    aggregate_usda_data (aggregate_usda_data l) = aggregate_usda_data l :=
  aggregate_eq_self_of_nodup_keys (aggregate_keys_nodup l)

theorem groupValueSum_perm {l₁ l₂ : List (AggKey × ℚ)} (h : l₁.Perm l₂) (k : AggKey) :
    groupValueSum l₁ k = groupValueSum l₂ k := by
  unfold groupValueSum
  exact ((h.filter _).map _).sum_eq

theorem aggregate_perm {l₁ l₂ : List (AggKey × ℚ)} (h : l₁.Perm l₂) :
    (aggregate_usda_data l₁).Perm (aggregate_usda_data l₂) := by
  have hkeys : ((l₁.map Prod.fst).dedup).Perm ((l₂.map Prod.fst).dedup) := by
    apply (List.perm_ext_iff_of_nodup (List.nodup_dedup _) (List.nodup_dedup _)).mpr
    intro a
    rw [List.mem_dedup, List.mem_dedup]
    exact (h.map Prod.fst).mem_iff
  unfold aggregate_usda_data
  have h2 : ((l₂.map Prod.fst).dedup).map (fun k => (k, groupValueSum l₁ k))
      = ((l₂.map Prod.fst).dedup).map (fun k => (k, groupValueSum l₂ k)) :=
    List.map_congr_left fun x _ => by rw [groupValueSum_perm h]
  exact h2 ▸ hkeys.map (fun k => (k, groupValueSum l₁ k))

end USDA

namespace USDA

/-! Helper lemmas about the balance-sheet derivation and the fetch loop. -/

theorem BalanceSheet.getCell_append_self {t : BalanceSheet.BTable} {a : String}
    {v : Option ℚ} (h : BalanceSheet.hasAttr t a = false) :
    BalanceSheet.getCell (t ++ [(a, v)]) a = v := by
  unfold BalanceSheet.getCell
  rw [List.find?_append]
  have hn : t.find? (fun p => p.1 == a) = none := by
    rw [List.find?_eq_none]
    intro x hx
    unfold BalanceSheet.hasAttr at h
    rw [List.any_eq_false] at h
    exact fun hb => h x hx hb
  rw [hn]
  simp

theorem get_combined_data_failure_isolated
    (fetch fetch2 : String → Int → Option (List RawRow)) (codes : List String)
    (years : List Int)
    (hext : ∀ c y, fetch c y = fetch2 c y ∨ (fetch c y = none ∧ fetch2 c y = some [])) :
    get_combined_data fetch codes years = get_combined_data fetch2 codes years := by
  have hfr : ∀ c y, fetch_records fetch c y = fetch_records fetch2 c y := by
    intro c y
    rcases hext c y with h | ⟨h1, h2⟩
    · unfold fetch_records; rw [h]
    · unfold fetch_records; rw [h1, h2]
  have h1 : (fun c => years.flatMap fun y => fetch_records fetch c y)
      = fun c => years.flatMap fun y => fetch_records fetch2 c y :=
    funext fun c => congrArg years.flatMap (funext fun y => hfr c y)
  unfold get_combined_data
  rw [h1]

/-- C3: every row of the table returned by clean_usda_data has a
CommodityDescription in the fixed 14-entry tracked commodity set and a
MarketYear of at least currentYear + 1 - 5. -/
theorem C3_tracked_commodity_and_year_window (h : USDADataHandler)
    (raw : List RawRow) (cref : List CountryRef) (kref : List CommodityRef)
    (aref : List AttributeRef) (uref : List UnitRef) (r : CleanRow)
    (hr : r ∈ h.clean_usda_data raw cref kref aref uref) :
    r.CommodityDescription ∈ Constants.COMM_DESC ∧
    h.current_year + 1 - 5 ≤ r.MarketYear := by
  obtain ⟨m, _, _, hcomm, hyear⟩ := mem_clean_usda_data hr
  exact ⟨List.elem_iff.mp hcomm, hyear⟩

/-- C3 witness: the concrete input c3raw/c3cref/... produces the cleaned row
c3out, whose commodity is tracked and whose marketing year is in window. -/
theorem C3_tracked_commodity_and_year_window_witness :
    c3out.CommodityDescription ∈ Constants.COMM_DESC ∧
    (2025 : Int) + 1 - 5 ≤ c3out.MarketYear :=
  C3_tracked_commodity_and_year_window c3h [c3raw] c3cref c3kref c3aref c3uref
    c3out (by decide)

/-- C6: aggregation is idempotent — re-aggregating an aggregated table by
the same six-field key returns the same table. -/
theorem C6_aggregate_idempotent (t : List CleanRow) :
    aggregate_usda_data (aggregate_usda_data (toKeyed t))
      = aggregate_usda_data (toKeyed t) :=
  aggregate_idem (toKeyed t)

/-- C7: aggregation is order-independent — permuting the cleaned input rows
yields a permutation (the same multiset) of aggregated rows. -/
theorem C7_aggregate_order_independent (t₁ t₂ : List CleanRow)
    (hp : t₁.Perm t₂) :
    (aggregate_usda_data (toKeyed t₁)).Perm (aggregate_usda_data (toKeyed t₂)) :=
  aggregate_perm (hp.map _)

/-- C7 witness: swapping two concrete rows permutes the aggregate output. -/
theorem C7_aggregate_order_independent_witness :
    (aggregate_usda_data (toKeyed [c7rowA, c7rowB])).Perm
      (aggregate_usda_data (toKeyed [c7rowB, c7rowA])) :=
  C7_aggregate_order_independent [c7rowA, c7rowB] [c7rowB, c7rowA]
    (List.Perm.swap c7rowB c7rowA [])

/-- C8: on a non-empty input, the column validation of clean_usda_data
succeeds exactly when every canonical output column is present post-join,
and raises the missing-columns error exactly when one is structurally
absent. -/
theorem C8_missing_schema_field_error (cols : List String) :
    (clean_usda_cols false cols = Except.ok Constants.REQ_COLS ↔
       ∀ c ∈ Constants.REQ_COLS, c ∈ cols) ∧
    ((∃ e, clean_usda_cols false cols = Except.error e) ↔
       ∃ c ∈ Constants.REQ_COLS, c ∉ cols) := by
  unfold clean_usda_cols
  by_cases hemp : (missing_cols cols).isEmpty
  · rw [if_neg (by simp), if_pos hemp]
    rw [List.isEmpty_iff] at hemp
    unfold missing_cols at hemp
    rw [List.filter_eq_nil_iff] at hemp
    constructor
    · constructor
      · intro _ c hc
        have := hemp c hc
        simp only [Bool.not_eq_true', Bool.not_eq_false] at this
        exact List.elem_iff.mp this
      · intro _; rfl
    · constructor
      · rintro ⟨e, he⟩; cases he
      · rintro ⟨c, hc, hnc⟩
        exfalso
        have := hemp c hc
        simp only [Bool.not_eq_true', Bool.not_eq_false] at this
        exact hnc (List.elem_iff.mp this)
  · rw [if_neg (by simp), if_neg hemp]
    have hne : missing_cols cols ≠ [] := by
      intro hnil; rw [hnil] at hemp; exact hemp rfl
    obtain ⟨c, hc⟩ := List.exists_mem_of_ne_nil _ hne
    have hcm := List.mem_filter.mp hc
    constructor
    · constructor
      · intro he; cases he
      · intro hall
        exfalso
        have := hall c hcm.1
        have hb : cols.contains c = true := List.elem_iff.mpr this
        rw [hb] at hcm
        exact absurd hcm.2 (by decide)
    · constructor
      · intro _
        refine ⟨c, hcm.1, fun hmem => ?_⟩
        have hb : cols.contains c = true := List.elem_iff.mpr hmem
        rw [hb] at hcm
        exact absurd hcm.2 (by decide)
      · intro _; exact ⟨missing_cols cols, rfl⟩

/-- C10: an empty raw table yields, without error, an empty table carrying
exactly the eight canonical columns. -/
theorem C10_empty_input_canonical_schema :
    (∀ cols, clean_usda_cols true cols = Except.ok Constants.REQ_COLS) ∧
    (∀ (h : USDADataHandler) (cref : List CountryRef) (kref : List CommodityRef)
       (aref : List AttributeRef) (uref : List UnitRef),
       h.clean_usda_data [] cref kref aref uref = []) := by
  constructor
  · intro cols; rfl
  · intro h cref kref aref uref; rfl

end USDA

namespace USDA

/-- C1 counterexample: a raw row whose country join fails is retained in
the cleaned output with CountryName equal to the literal string "nan" — a
value no reference country strips to — rather than being excluded or
flagged, and a whitespace-only reference name yields an empty CountryName. -/
theorem C1_cx_nan_placeholder :
    c1h.clean_usda_data [c1raw1, c1raw2] c1cref c1kref c1aref c1uref =
      [c1outrow, ⟨"Oil, Palm", "", 2024, 2024, 11, "Production", "1000 MT", 3⟩] ∧
    c1outrow.CountryName = "nan" ∧
    (∀ c ∈ c1cref, strip c.countryName ≠ "nan") ∧
    (∀ c ∈ c1cref, c.countryCode ≠ c1raw1.countryCode) := by decide

/-- C1 amended: every cleaned row has trimmed string fields and a tracked
(hence non-empty) CommodityDescription, and its CountryName is either a
trimmed reference name or the placeholder "nan" produced by casting a
failed join's null; no field is null, because the astype cast replaces
nulls by concrete values. -/
theorem C1_clean_row_invariants (h : USDADataHandler) (raw : List RawRow)
    (cref : List CountryRef) (kref : List CommodityRef) (aref : List AttributeRef)
    (uref : List UnitRef) (r : CleanRow)
    (hr : r ∈ h.clean_usda_data raw cref kref aref uref) :
    (strip r.CommodityDescription = r.CommodityDescription ∧
     strip r.CountryName = r.CountryName ∧
     strip r.AttributeDescription = r.AttributeDescription ∧
     strip r.UnitDescription = r.UnitDescription) ∧
    r.CommodityDescription ∈ Constants.COMM_DESC ∧
    (r.CountryName = "nan" ∨ ∃ c ∈ cref, r.CountryName = strip c.countryName) := by
  obtain ⟨m, hm, heq, hcomm, _⟩ := mem_clean_usda_data hr
  subst heq
  refine ⟨⟨strip_strip _, strip_strip _, strip_strip _, strip_strip _⟩,
    List.elem_iff.mp hcomm, ?_⟩
  rcases merge_refs_countryName hm with hnone | ⟨c, hc, hsome⟩
  · left
    show strip (astypeStr m.countryName) = "nan"
    rw [hnone]
    rfl
  · right
    refine ⟨c, hc, ?_⟩
    show strip (astypeStr m.countryName) = strip c.countryName
    rw [hsome]
    rfl

/-- C1 witness: the amended invariants instantiated at the C1 scenario's
first output row. -/
theorem C1_clean_row_invariants_witness :
    (strip c1outrow.CommodityDescription = c1outrow.CommodityDescription ∧
     strip c1outrow.CountryName = c1outrow.CountryName ∧
     strip c1outrow.AttributeDescription = c1outrow.AttributeDescription ∧
     strip c1outrow.UnitDescription = c1outrow.UnitDescription) ∧
    c1outrow.CommodityDescription ∈ Constants.COMM_DESC ∧
    (c1outrow.CountryName = "nan" ∨
     ∃ c ∈ c1cref, c1outrow.CountryName = strip c.countryName) :=
  C1_clean_row_invariants c1h [c1raw1, c1raw2] c1cref c1kref c1aref c1uref
    c1outrow (by decide)

/-- C2 counterexample: the unmatched raw row is indeed retained through the
left-joins with a null countryName, but the resulting cleaned row's
CountryName is the string "nan", not null — the output is identical to the
run in which the reference table really maps BR to a country named nan. -/
theorem C2_cx_countryName_not_null :
    (∃ m ∈ merge_refs [c2raw] c2cref c2kref c2aref c2uref,
       m.r = c2raw ∧ m.countryName = none) ∧
    c2h.clean_usda_data [c2raw] c2cref c2kref c2aref c2uref =
      [⟨"Oil, Soybean", "nan", 2023, 2023, 5, "Exports", "1000 MT", 5⟩] ∧
    c2h.clean_usda_data [c2raw] c2cref c2kref c2aref c2uref =
      c2h.clean_usda_data [c2raw] (c2cref ++ [⟨"BR", "nan"⟩]) c2kref c2aref c2uref := by
  decide

/-- C2 amended: a raw observation whose country code matches no reference
row is retained through all four left-joins with countryName null at the
join stage, and the astype cast then renders the cleaned row's CountryName
as the literal string "nan" (so the row is neither dropped nor assigned a
reference country's name, but the null does not survive into the output). -/
theorem C2_unmatched_country_retained_as_nan (raw : List RawRow)
    (cref : List CountryRef) (kref : List CommodityRef) (aref : List AttributeRef)
    (uref : List UnitRef) (r : RawRow) (hr : r ∈ raw)
    (hnm : ∀ c ∈ cref, c.countryCode ≠ r.countryCode) :
    ∃ m ∈ merge_refs raw cref kref aref uref,
      m.r = r ∧ m.countryName = none ∧ (stripRow (toCleanRow m)).CountryName = "nan" := by
  obtain ⟨m, hm, hmr, hmc⟩ := merge_refs_retains_unmatched kref aref uref hr hnm
  refine ⟨m, hm, hmr, hmc, ?_⟩
  show strip (astypeStr m.countryName) = "nan"
  rw [hmc]
  rfl

/-- C2 witness: the amended statement instantiated at the C2 scenario. -/
theorem C2_unmatched_country_retained_as_nan_witness :
    ∃ m ∈ merge_refs [c2raw] c2cref c2kref c2aref c2uref,
      m.r = c2raw ∧ m.countryName = none ∧
      (stripRow (toCleanRow m)).CountryName = "nan" :=
  C2_unmatched_country_retained_as_nan [c2raw] c2cref c2kref c2aref c2uref c2raw
    (by decide) (by decide)

/-- C4: aggregation emits one row per distinct six-field key, carrying the
sum of the Values of the input rows sharing that key; in particular two
rows with an identical key and values 7 and 13 collapse to a single row
with Value 20. -/
theorem C4_aggregate_one_row_per_key (t : List CleanRow) (k : AggKey)
    (hk : k ∈ t.map keyOf) :
    ((aggregate_usda_data (toKeyed t)).map Prod.fst).Nodup ∧
    (aggregate_usda_data (toKeyed t)).filter (fun p => decide (p.1 = k))
      = [(k, ((t.filter fun r => decide (keyOf r = k)).map CleanRow.Value).sum)] ∧
    aggregate_usda_data (toKeyed [c4rowA, c4rowB]) = [(c4key, 20)] := by
  refine ⟨aggregate_keys_nodup _, ?_, by
    simp +decide [aggregate_usda_data, toKeyed, groupValueSum, keyOf,
      c4rowA, c4rowB, c4key, List.dedup_cons_of_mem, List.dedup_cons_of_not_mem]
    norm_num⟩
  rw [← groupValueSum_toKeyed]
  refine aggregate_filter_key _ ?_
  show k ∈ (toKeyed t).map Prod.fst
  rw [toKeyed, List.map_map]
  exact hk

/-- C4 witness: the aggregation contract instantiated at the 7-and-13
scenario and its shared key. -/
theorem C4_aggregate_one_row_per_key_witness :
    ((aggregate_usda_data (toKeyed [c4rowA, c4rowB])).map Prod.fst).Nodup ∧
    (aggregate_usda_data (toKeyed [c4rowA, c4rowB])).filter
        (fun p => decide (p.1 = c4key))
      = [(c4key, (([c4rowA, c4rowB].filter fun r => decide (keyOf r = c4key)).map
          CleanRow.Value).sum)] ∧
    aggregate_usda_data (toKeyed [c4rowA, c4rowB]) = [(c4key, 20)] :=
  C4_aggregate_one_row_per_key [c4rowA, c4rowB] c4key (by decide)

end USDA

namespace USDA

open BalanceSheet

/-- C5: the balance-sheet derivation pass — Domestic Consumption from
Total Dom. Cons. when present, else from the present consumption
components; Total Use from Domestic Consumption + Exports only when both
are present; Stock-to-Use undefined (not zero) when Total Use is zero; and
the 30/20/10-5-5 scenario derives 20, 50 and 40 percent. -/
theorem C5_balance_sheet_derivation (t : BTable) :
    (hasAttr t "Domestic Consumption" = false →
     hasAttr t "Total Dom. Cons." = true →
     getCell (derive_dc t) "Domestic Consumption" = getCell t "Total Dom. Cons.") ∧
    (hasAttr t "Domestic Consumption" = false →
     hasAttr t "Total Dom. Cons." = false →
     (CONS_PARTS.filter (hasAttr t)).isEmpty = false →
     getCell (derive_dc t) "Domestic Consumption"
       = some (((CONS_PARTS.filter (hasAttr t)).filterMap (getCell t)).sum)) ∧
    (hasAttr t "Total Use" = false →
     hasAttr t "Domestic Consumption" = true →
     hasAttr t "Exports" = true →
     getCell (derive_tu t) "Total Use"
       = cellAdd (getCell t "Domestic Consumption") (getCell t "Exports")) ∧
    (hasAttr t "Total Use" = false →
     (hasAttr t "Domestic Consumption" && hasAttr t "Exports") = false →
     derive_tu t = t) ∧
    (hasAttr t "Stock-to-Use (%)" = false →
     hasAttr t "Ending Stocks" = true →
     hasAttr t "Total Use" = true →
     getCell t "Total Use" = some 0 →
     getCell (derive_stu t) "Stock-to-Use (%)" = none) ∧
    (getCell (derive_rows c5table) "Domestic Consumption" = some 20 ∧
     getCell (derive_rows c5table) "Total Use" = some 50 ∧
     getCell (derive_rows c5table) "Stock-to-Use (%)" = some 40) := by
  refine ⟨?_, ?_, ?_, ?_, ?_, ?_⟩
  · intro h1 h2
    have hd : derive_dc t = t ++ [("Domestic Consumption", getCell t "Total Dom. Cons.")] := by
      unfold derive_dc
      rw [h1, h2]
      simp
    rw [hd, getCell_append_self h1]
  · intro h1 h2 h3
    have hd : derive_dc t = t ++ [("Domestic Consumption",
        some (((CONS_PARTS.filter (hasAttr t)).filterMap (getCell t)).sum))] := by
      unfold derive_dc
      rw [h1, h2, h3]
      simp
    rw [hd, getCell_append_self h1]
  · intro h1 h2 h3
    have hd : derive_tu t = t ++ [("Total Use",
        cellAdd (getCell t "Domestic Consumption") (getCell t "Exports"))] := by
      unfold derive_tu
      rw [h1, h2, h3]
      simp
    rw [hd, getCell_append_self h1]
  · intro h1 h2
    unfold derive_tu
    rw [h1, h2]
    simp
  · intro h1 h2 h3 h4
    have hd : derive_stu t = t ++ [("Stock-to-Use (%)",
        stuCell (getCell t "Ending Stocks") (getCell t "Total Use"))] := by
      unfold derive_stu
      rw [h1, h2, h3]
      simp
    rw [hd, getCell_append_self h1, h4]
    cases getCell t "Ending Stocks" <;> simp [stuCell]
  · have h1 : derive_dc c5table = c5table ++ [("Domestic Consumption", some 20)] := by
      simp +decide [derive_dc, c5table, hasAttr, getCell, CONS_PARTS]
      norm_num
    have h2 : derive_tu (c5table ++ [("Domestic Consumption", some 20)])
        = c5table ++ [("Domestic Consumption", some 20), ("Total Use", some 50)] := by
      simp +decide [derive_tu, c5table, hasAttr, getCell, cellAdd]
      norm_num
    have h3 : derive_td (c5table ++ [("Domestic Consumption", some 20), ("Total Use", some 50)])
        = c5table ++ [("Domestic Consumption", some 20), ("Total Use", some 50),
            ("Total Distribution", some 70)] := by
      simp +decide [derive_td, c5table, hasAttr, getCell, cellAdd]
      norm_num
    have h4 : derive_stu (c5table ++ [("Domestic Consumption", some 20), ("Total Use", some 50),
          ("Total Distribution", some 70)])
        = c5table ++ [("Domestic Consumption", some 20), ("Total Use", some 50),
            ("Total Distribution", some 70), ("Stock-to-Use (%)", some 40)] := by
      simp +decide [derive_stu, c5table, hasAttr, getCell, stuCell]
      norm_num
    unfold derive_rows
    rw [h1, h2, h3, h4]
    exact ⟨by decide, by decide, by decide⟩

/-- C5 witness: each conditional derivation applied to a concrete table
satisfying its preconditions. -/
theorem C5_balance_sheet_derivation_witness :
    (getCell (derive_dc c5tTdc) "Domestic Consumption"
       = getCell c5tTdc "Total Dom. Cons.") ∧
    (getCell (derive_dc c5table) "Domestic Consumption"
       = some (((CONS_PARTS.filter (hasAttr c5table)).filterMap (getCell c5table)).sum)) ∧
    (getCell (derive_tu c5tDcEx) "Total Use"
       = cellAdd (getCell c5tDcEx "Domestic Consumption") (getCell c5tDcEx "Exports")) ∧
    (derive_tu c5tEx = c5tEx) ∧
    (getCell (derive_stu c5tZero) "Stock-to-Use (%)" = none) :=
  ⟨(C5_balance_sheet_derivation c5tTdc).1 (by decide) (by decide),
   (C5_balance_sheet_derivation c5table).2.1 (by decide) (by decide) (by decide),
   (C5_balance_sheet_derivation c5tDcEx).2.2.1 (by decide) (by decide) (by decide),
   (C5_balance_sheet_derivation c5tEx).2.2.2.1 (by decide) (by decide),
   (C5_balance_sheet_derivation c5tZero).2.2.2.2.1 (by decide) (by decide) (by decide)
     (by decide)⟩

/-- C9 counterexample: with 3 of the 70 (code, year) requests failing, the
run completes with the 67 other pairs' records, but the run summary the
code reports consists of the request total, the completed counter and the
record count — none of which is the failure count 3. -/
theorem C9_cx_no_failure_count :
    failed_request_count c9fetch Constants.PROD_CODE c9h.market_years = 3 ∧
    (get_combined_data c9fetch Constants.PROD_CODE c9h.market_years).2
      = ⟨70, 70, 67⟩ ∧
    (get_combined_data c9fetch Constants.PROD_CODE c9h.market_years).1.length = 67 ∧
    (70 : Nat) ≠ 3 ∧ (67 : Nat) ≠ 3 := by decide

/-- C9 amended: a failed (code, year) request contributes zero records and
does not abort the rest — the combined output and summary equal those of a
run where the failing pairs return no data; failures are logged
per-request but never counted into the reported summary. -/
theorem C9_failure_isolated (fetch fetch2 : String → Int → Option (List RawRow))
    (codes : List String) (years : List Int)
    (hext : ∀ c y, fetch c y = fetch2 c y ∨ (fetch c y = none ∧ fetch2 c y = some [])) :
    get_combined_data fetch codes years = get_combined_data fetch2 codes years ∧
    (get_combined_data c9fetch Constants.PROD_CODE c9h.market_years).1.length = 67 :=
  ⟨get_combined_data_failure_isolated fetch fetch2 codes years hext, by decide⟩

/-- C9 witness: the isolation equality instantiated at the concrete fetch
with three failing pairs and its empty-response patch. -/
theorem C9_failure_isolated_witness :
    get_combined_data c9fetch Constants.PROD_CODE c9h.market_years
      = get_combined_data c9fetch2 Constants.PROD_CODE c9h.market_years ∧
    (get_combined_data c9fetch Constants.PROD_CODE c9h.market_years).1.length = 67 :=
  C9_failure_isolated c9fetch c9fetch2 Constants.PROD_CODE c9h.market_years
    (by
      intro c y
      unfold c9fetch c9fetch2
      by_cases h : c9fails c y
      · rw [if_pos h, if_pos h]
        exact Or.inr ⟨rfl, rfl⟩
      · rw [if_neg h, if_neg h]
        exact Or.inl rfl)

end USDA
